import Mathlib

/-!
Shallow embedding of `pkg/verifier/tsa.go` (timestamp-authority verification).

Modelling conventions:
* `time.Time` is modelled as `Int` (a point on a linear timeline); Go's
  `a.Before b` is `a < b` and `a.After b` is `b < a`.  A `time.Time` zero
  value (for which `IsZero` holds) on a validity bound is modelled as `none`.
* Certificates are opaque and modelled as `Nat` identifiers; timestamp
  tokens and signature bytes are opaque byte blobs modelled as `List Nat`.
* The external collaborators (the timestamp-token cryptographic verifier
  `tsaverification.VerifyTimestampResponse`, the X.509 chain verifier
  `Leaf.Verify`, and `VerificationContent.ValidAtTime`) are oracles: they
  are carried in an `Env` / in the `VerificationContent` value and the core
  is verified for every behaviour of those oracles.
* Go's `(value, error)` returns become `Except`; `entity.Timestamps()` is a
  pair `(list, Option error)` because the caller reads the list's length
  even when the error is set (line 31 of the source).
-/

namespace Tsa

/-- Opaque certificate, identified by a number (`*x509.Certificate`). -/
abbrev Cert := Nat

/-- Opaque byte blob (`[]byte`): a timestamp token or signature bytes. -/
abbrev Bytes := List Nat

/-- One TSA certificate authority of the trusted material
(`root.CertificateAuthority`): root, intermediates, leaf and an optional
operational validity window.  `none` models a zero (`IsZero`) bound. -/
structure CertificateAuthority where
  root : Cert
  intermediates : List Cert
  leaf : Cert
  validityPeriodStart : Option Int
  validityPeriodEnd : Option Int
deriving DecidableEq, Repr

/-- The trusted material (`root.TrustedMaterial`), reduced to what the core
reads from it: the ordered sequence of TSA certificate authorities returned
by `TSACertificateAuthorities()`. -/
structure TrustedMaterial where
  tsaCertificateAuthorities : List CertificateAuthority

/-- The verification content of the signed entity
(`bundle.VerificationContent`): the core only calls `ValidAtTime`. -/
structure VerificationContent where
  validAtTime : Int → TrustedMaterial → Bool

/-- The signature content of the signed entity: the core only calls
`GetSignature()`. -/
structure SignatureContent where
  getSignature : Bytes

/-- A signed entity (`SignedEntity`), reduced to the three accessors the
core calls.  `timestamps` is the Go pair `([]..., error)`. -/
structure SignedEntity where
  timestamps : List Bytes × Option String
  signatureContent : Except String SignatureContent
  verificationContent : Except String VerificationContent

/-- `TimestampAuthorityVerifier`: immutable trusted material and threshold
captured at construction. -/
structure TimestampAuthorityVerifier where
  trustedMaterial : TrustedMaterial
  threshold : Nat

/-- `NewTimestampAuthorityVerifier` (lines 116-121 of the source). -/
def NewTimestampAuthorityVerifier (trustedMaterial : TrustedMaterial)
    (threshold : Nat) : TimestampAuthorityVerifier :=
  ⟨trustedMaterial, threshold⟩

/-- `tsaverification.VerifyOpts` as the source fills it (lines 62-66):
roots, intermediates and the TSA leaf certificate of one candidate. -/
structure VerifyOpts where
  roots : List Cert
  intermediates : List Cert
  tsaCertificate : Cert
deriving DecidableEq, Repr

/-- Extended key usages (`x509.ExtKeyUsage`); the core only uses
`ExtKeyUsageTimeStamping`. -/
inductive ExtKeyUsage where
  | timeStamping
deriving DecidableEq, Repr

/-- `x509.VerifyOptions` as the source fills it (lines 83-90): reference
time, root pool, intermediate pool, required key usages.  Cert pools are
modelled as the lists of certificates added to them. -/
structure X509VerifyOptions where
  currentTime : Int
  roots : List Cert
  intermediates : List Cert
  keyUsages : List ExtKeyUsage
deriving DecidableEq, Repr

/-- The two external cryptographic primitives, as oracles:
`verifyTimestampResponse` is `tsaverification.VerifyTimestampResponse`
(`none` = error, `some t` = the token's asserted time `t`); `certVerify` is
`(leaf : *x509.Certificate).Verify(opts)` (`false` = error). -/
structure Env where
  verifyTimestampResponse : Bytes → Bytes → VerifyOpts → Option Int
  certVerify : Cert → X509VerifyOptions → Bool

/-- Message of the error returned when the candidate scan is exhausted
(line 113 of the source). -/
def unableToVerifySignedMsg : String := "Unable to verify signed timestamps"

/-- The body of the candidate loop of `verifySignedTimestamp`
(lines 62-110): every `continue` is `none`, the final
`return timestamp.Time, nil` is `some timestampTime`. -/
def tryCertAuthority (env : Env) (signedTimestamp dsseSignatureBytes : Bytes)
    (trustedMaterial : TrustedMaterial)
    (verificationContent : VerificationContent)
    (ca : CertificateAuthority) : Option Int :=
  let trustedRootVerificationOptions : VerifyOpts :=
    ⟨[ca.root], ca.intermediates, ca.leaf⟩
  let tsaRootCertPool : List Cert := [ca.root]
  let tsaIntermediateCertPool : List Cert := ca.intermediates
  match env.verifyTimestampResponse signedTimestamp dsseSignatureBytes
      trustedRootVerificationOptions with
  | none => none
  | some timestampTime =>
    let verificationOptions : X509VerifyOptions :=
      ⟨timestampTime, tsaRootCertPool, tsaIntermediateCertPool,
        [ExtKeyUsage.timeStamping]⟩
    if ! env.certVerify ca.leaf verificationOptions then none
    else if (match ca.validityPeriodStart with
             | some s => decide (timestampTime < s)
             | none => false) then none
    else if (match ca.validityPeriodEnd with
             | some e => decide (e < timestampTime)
             | none => false) then none
    else if ! verificationContent.validAtTime timestampTime trustedMaterial
      then none
    else some timestampTime

/-- The candidate loop of `verifySignedTimestamp` (lines 61-113) over an
explicit list of candidates: first candidate whose body succeeds wins, an
exhausted scan is the error of line 113. -/
def scanCertAuthorities (env : Env)
    (signedTimestamp dsseSignatureBytes : Bytes)
    (trustedMaterial : TrustedMaterial)
    (verificationContent : VerificationContent) :
    List CertificateAuthority → Except String Int
  | [] => Except.error unableToVerifySignedMsg
  | ca :: rest =>
    match tryCertAuthority env signedTimestamp dsseSignatureBytes
        trustedMaterial verificationContent ca with
    | some t => Except.ok t
    | none => scanCertAuthorities env signedTimestamp dsseSignatureBytes
        trustedMaterial verificationContent rest

/-- `verifySignedTimestamp` (lines 57-114 of the source). -/
def verifySignedTimestamp (env : Env)
    (signedTimestamp dsseSignatureBytes : Bytes)
    (trustedMaterial : TrustedMaterial)
    (verificationContent : VerificationContent) : Except String Int :=
  scanCertAuthorities env signedTimestamp dsseSignatureBytes trustedMaterial
    verificationContent trustedMaterial.tsaCertificateAuthorities

/-- The errors `NewVerify` returns, keeping the data the Go error strings
carry: `notEnoughTimestamps observed required` is
`"not enough signed timestamps: %d < %d"` (line 31), `propagated` wraps an
error returned verbatim from the entity's accessors (lines 36 and 43), and
`unableToVerifyTimestamp` is `"unable to verify timestamp"` (line 50). -/
inductive VerifyError where
  | notEnoughTimestamps (observed required : Nat)
  | propagated (msg : String)
  | unableToVerifyTimestamp
deriving DecidableEq, Repr

/-- The Go error string each `VerifyError` renders to. -/
def VerifyError.message : VerifyError → String
  | .notEnoughTimestamps n k =>
      "not enough signed timestamps: " ++ toString n ++ " < " ++ toString k
  | .propagated msg => msg
  | .unableToVerifyTimestamp => "unable to verify timestamp"

/-- The per-timestamp loop of `NewVerify` (lines 46-54): verify each token
in input order, fail the whole call on the first token that does not
verify, otherwise append the verified time. -/
def verifyTimestampsLoop (env : Env) (signatureBytes : Bytes)
    (trustedMaterial : TrustedMaterial)
    (verificationContent : VerificationContent) :
    List Bytes → Except VerifyError (List Int)
  | [] => Except.ok []
  | timestamp :: rest =>
    match verifySignedTimestamp env timestamp signatureBytes trustedMaterial
        verificationContent with
    | Except.error _ => Except.error VerifyError.unableToVerifyTimestamp
    | Except.ok verifiedSignedTimestamp =>
      match verifyTimestampsLoop env signatureBytes trustedMaterial
          verificationContent rest with
      | Except.error e => Except.error e
      | Except.ok verifiedTimestamps =>
        Except.ok (verifiedSignedTimestamp :: verifiedTimestamps)

/-- `NewVerify` (lines 26-55 of the source): threshold fast-path, then the
two content retrievals, then the per-timestamp loop. -/
def NewVerify (env : Env) (p : TimestampAuthorityVerifier)
    (entity : SignedEntity) : Except VerifyError (List Int) :=
  match entity.timestamps with
  | (signedTimestamps, tsErr) =>
    if tsErr.isSome || decide (signedTimestamps.length < p.threshold) then
      Except.error
        (VerifyError.notEnoughTimestamps signedTimestamps.length p.threshold)
    else
      match entity.signatureContent with
      | Except.error err => Except.error (VerifyError.propagated err)
      | Except.ok sigContent =>
        match entity.verificationContent with
        | Except.error err => Except.error (VerifyError.propagated err)
        | Except.ok verificationContent =>
          verifyTimestampsLoop env sigContent.getSignature p.trustedMaterial
            verificationContent signedTimestamps

/-- `Verify` (lines 21-24 of the source): run `NewVerify`, discard the
times, return only the error (`none` = success). -/
def Verify (env : Env) (p : TimestampAuthorityVerifier)
    (entity : SignedEntity) : Option VerifyError :=
  match NewVerify env p entity with
  | Except.ok _ => none
  | Except.error err => some err

/-- The time a token verifies to, with a default for tokens that do not
verify; used to state order preservation of the returned times. -/
def verifiedTimeOf (env : Env) (signatureBytes : Bytes)
    (trustedMaterial : TrustedMaterial)
    (verificationContent : VerificationContent) (tok : Bytes) : Int :=
  match verifySignedTimestamp env tok signatureBytes trustedMaterial
      verificationContent with
  | Except.ok u => u
  | Except.error _ => 0

/-! Concrete values used to evaluate the development on closed inputs. -/

/-- A concrete timestamp token. -/
def wTok : Bytes := [0]

/-- A concrete signature content. -/
def wSC : SignatureContent := ⟨[9]⟩

/-- A verification content that accepts every time. -/
def wVC : VerificationContent := ⟨fun _ _ => true⟩

/-- A certificate authority with validity window bounds 10 and 20. -/
def wCA : CertificateAuthority := ⟨1, [2], 3, some 10, some 20⟩

/-- A certificate authority with no validity bounds. -/
def wCA2 : CertificateAuthority := ⟨4, [], 5, none, none⟩

/-- Trusted material with the single candidate `wCA`. -/
def wTM : TrustedMaterial := ⟨[wCA]⟩

/-- Trusted material with candidates `wCA` then `wCA2`. -/
def wTM2 : TrustedMaterial := ⟨[wCA, wCA2]⟩

/-- Trusted material with candidates `wCA2` then `wCA`: `wTM2` reversed. -/
def wTM2r : TrustedMaterial := ⟨[wCA2, wCA]⟩

/-- Oracles under which every token fails cryptographic verification. -/
def wEnvFail : Env := ⟨fun _ _ _ => none, fun _ _ => true⟩

/-- Oracles under which every token asserts time 20 and all chains check. -/
def wEnvAt20 : Env := ⟨fun _ _ _ => some 20, fun _ _ => true⟩

/-- Oracles under which tokens assert time 15 and only the leaf
certificate 5 (the leaf of `wCA2`) chains. -/
def wEnvPick : Env := ⟨fun _ _ _ => some 15, fun leaf _ => leaf == 5⟩

/-- Oracles under which every chain checks and a token's asserted time is
10 plus the candidate's leaf-certificate number, so different candidates
derive different times. -/
def wEnvBoth : Env :=
  ⟨fun _ _ opts => some (10 + (opts.tsaCertificate : Int)), fun _ _ => true⟩

/-- A signed entity carrying one token. -/
def wEntityOne : SignedEntity := ⟨([wTok], none), Except.ok wSC, Except.ok wVC⟩

/-- A signed entity carrying two identical copies of the same token. -/
def wEntityTwo : SignedEntity :=
  ⟨(List.replicate 2 wTok, none), Except.ok wSC, Except.ok wVC⟩

/-- A signed entity carrying no tokens. -/
def wEntityEmpty : SignedEntity := ⟨([], none), Except.ok wSC, Except.ok wVC⟩

/-! Helper lemmas about the candidate scan and the per-timestamp loop. -/

/-- When the threshold check passes and both content retrievals succeed,
`NewVerify` is exactly the per-timestamp loop on the retrieved tokens. -/
theorem NewVerify_run (env : Env) (p : TimestampAuthorityVerifier)
    (entity : SignedEntity) (ts : List Bytes) (sc : SignatureContent)
    (vc : VerificationContent)
    (hts : entity.timestamps = (ts, none))
    (hlen : ¬ ts.length < p.threshold)
    (hsc : entity.signatureContent = Except.ok sc)
    (hvc : entity.verificationContent = Except.ok vc) :
    NewVerify env p entity =
      verifyTimestampsLoop env sc.getSignature p.trustedMaterial vc ts := by
  simp [NewVerify, hts, hsc, hvc, hlen]

/-- The candidate body reads the trusted material only through
`validAtTime`: two trusted materials on which the verification content
answers identically yield the same per-candidate outcome. -/
theorem tryCertAuthority_congr (env : Env) (st sb : Bytes)
    (tm₁ tm₂ : TrustedMaterial) (vc : VerificationContent)
    (hvc : ∀ u : Int, vc.validAtTime u tm₁ = vc.validAtTime u tm₂)
    (ca : CertificateAuthority) :
    tryCertAuthority env st sb tm₁ vc ca =
      tryCertAuthority env st sb tm₂ vc ca := by
  cases h : env.verifyTimestampResponse st sb
      ⟨[ca.root], ca.intermediates, ca.leaf⟩ with
  | none => simp [tryCertAuthority, h]
  | some t => simp [tryCertAuthority, h, hvc t]

/-- Candidates that fail the per-candidate body are skipped: the scan of a
list whose prefix all fails is the scan of the remainder. -/
theorem scan_append_of_none (env : Env) (st sb : Bytes)
    (tm : TrustedMaterial) (vc : VerificationContent)
    (l₁ l₂ : List CertificateAuthority)
    (hpre : ∀ ca ∈ l₁, tryCertAuthority env st sb tm vc ca = none) :
    scanCertAuthorities env st sb tm vc (l₁ ++ l₂) =
      scanCertAuthorities env st sb tm vc l₂ := by
  induction l₁ with
  | nil => rfl
  | cons hd tl ih =>
    have hhd := hpre hd (List.mem_cons_self hd tl)
    have htl : ∀ ca ∈ tl, tryCertAuthority env st sb tm vc ca = none :=
      fun ca h => hpre ca (List.mem_cons_of_mem hd h)
    simp [scanCertAuthorities, hhd, ih htl]

/-- If every candidate of the list fails the per-candidate body, the scan
exhausts the list and returns the line-113 error. -/
theorem scan_error_of_all_none (env : Env) (st sb : Bytes)
    (tm : TrustedMaterial) (vc : VerificationContent)
    (l : List CertificateAuthority)
    (hall : ∀ ca ∈ l, tryCertAuthority env st sb tm vc ca = none) :
    scanCertAuthorities env st sb tm vc l =
      Except.error unableToVerifySignedMsg := by
  induction l with
  | nil => rfl
  | cons ca rest ih =>
    have hca := hall ca (List.mem_cons_self ca rest)
    have hrest : ∀ ca' ∈ rest, tryCertAuthority env st sb tm vc ca' = none :=
      fun ca' h => hall ca' (List.mem_cons_of_mem ca h)
    simp [scanCertAuthorities, hca, ih hrest]

/-- If one candidate of the list succeeds with time `t` and every other
candidate (by value) fails, the scan returns `t` wherever the successful
candidate sits in the list. -/
theorem scan_ok_of_unique (env : Env) (st sb : Bytes)
    (tm : TrustedMaterial) (vc : VerificationContent)
    (caStar : CertificateAuthority) (t : Int)
    (hstar : tryCertAuthority env st sb tm vc caStar = some t)
    (l : List CertificateAuthority) (hmem : caStar ∈ l)
    (hothers : ∀ ca ∈ l, ca ≠ caStar →
      tryCertAuthority env st sb tm vc ca = none) :
    scanCertAuthorities env st sb tm vc l = Except.ok t := by
  induction l with
  | nil => cases hmem
  | cons ca rest ih =>
    by_cases hca : ca = caStar
    · subst hca
      simp [scanCertAuthorities, hstar]
    · have hnone := hothers ca (List.mem_cons_self ca rest) hca
      have hmem' : caStar ∈ rest := by
        rcases List.mem_cons.mp hmem with h | h
        · exact absurd h.symm hca
        · exact h
      have hothers' : ∀ ca' ∈ rest, ca' ≠ caStar →
          tryCertAuthority env st sb tm vc ca' = none :=
        fun ca' h hne => hothers ca' (List.mem_cons_of_mem ca h) hne
      simp [scanCertAuthorities, hnone, ih hmem' hothers']

/-- If some token of the list fails per-timestamp verification, the loop
fails with the generic line-50 error, whatever the other tokens do. -/
theorem loop_error_of_mem_fail (env : Env) (sb : Bytes)
    (tm : TrustedMaterial) (vc : VerificationContent)
    (ts : List Bytes) (tok : Bytes) (htok : tok ∈ ts) (e : String)
    (hfail : verifySignedTimestamp env tok sb tm vc = Except.error e) :
    verifyTimestampsLoop env sb tm vc ts =
      Except.error VerifyError.unableToVerifyTimestamp := by
  induction ts with
  | nil => cases htok
  | cons hd rest ih =>
    rcases List.mem_cons.mp htok with h | h
    · subst h
      simp [verifyTimestampsLoop, hfail]
    · unfold verifyTimestampsLoop
      cases hhd : verifySignedTimestamp env hd sb tm vc with
      | error _ => rfl
      | ok u => simp [ih h]

/-- If every token of the list verifies, the loop succeeds and returns the
tokens' verified times position for position. -/
theorem loop_ok_of_all (env : Env) (sb : Bytes)
    (tm : TrustedMaterial) (vc : VerificationContent)
    (ts : List Bytes)
    (hall : ∀ tok ∈ ts, ∃ u,
      verifySignedTimestamp env tok sb tm vc = Except.ok u) :
    verifyTimestampsLoop env sb tm vc ts =
      Except.ok (ts.map (verifiedTimeOf env sb tm vc)) := by
  induction ts with
  | nil => rfl
  | cons hd rest ih =>
    obtain ⟨u, hu⟩ := hall hd (List.mem_cons_self hd rest)
    have hrest : ∀ tok ∈ rest, ∃ u,
        verifySignedTimestamp env tok sb tm vc = Except.ok u :=
      fun tok h => hall tok (List.mem_cons_of_mem hd h)
    have hval : verifiedTimeOf env sb tm vc hd = u := by
      simp [verifiedTimeOf, hu]
    simp [verifyTimestampsLoop, hu, ih hrest, hval]

/-- Conversely, a successful loop means every token verified and the
returned list is exactly the tokens' verified times in input order. -/
theorem loop_ok_inv (env : Env) (sb : Bytes)
    (tm : TrustedMaterial) (vc : VerificationContent)
    (ts : List Bytes) (times : List Int)
    (hok : verifyTimestampsLoop env sb tm vc ts = Except.ok times) :
    (∀ tok ∈ ts, ∃ u,
      verifySignedTimestamp env tok sb tm vc = Except.ok u) ∧
    times = ts.map (verifiedTimeOf env sb tm vc) := by
  induction ts generalizing times with
  | nil =>
    simp [verifyTimestampsLoop] at hok
    subst hok
    exact ⟨by simp, rfl⟩
  | cons hd rest ih =>
    unfold verifyTimestampsLoop at hok
    cases hhd : verifySignedTimestamp env hd sb tm vc with
    | error e => rw [hhd] at hok; cases hok
    | ok u =>
      rw [hhd] at hok
      cases hrest : verifyTimestampsLoop env sb tm vc rest with
      | error e => rw [hrest] at hok; cases hok
      | ok vs =>
        rw [hrest] at hok
        cases hok
        obtain ⟨hall, hmap⟩ := ih vs hrest
        refine ⟨?_, ?_⟩
        · intro tok htok
          rcases List.mem_cons.mp htok with h | h
          · exact h ▸ ⟨u, hhd⟩
          · exact hall tok h
        · have hval : verifiedTimeOf env sb tm vc hd = u := by
            simp [verifiedTimeOf, hhd]
          simp [hval, hmap]

/-! The claims. -/

/-- Claim C3: if timestamp retrieval fails, or the number of attached
tokens is strictly below the threshold, the call fails with the
"not enough signed timestamps" error carrying the observed and required
counts — and it does so for every oracle environment and for all values of
the entity's signature-content and verification-content accessors, so no
cryptographic verification or further content retrieval is consulted. -/
theorem C3_threshold_fast_path_rejection (env : Env)
    (p : TimestampAuthorityVerifier) (entity : SignedEntity)
    (ts : List Bytes) (err : Option String)
    (hts : entity.timestamps = (ts, err))
    (hbad : err.isSome = true ∨ ts.length < p.threshold) :
    NewVerify env p entity =
      Except.error (VerifyError.notEnoughTimestamps ts.length p.threshold) ∧
    Verify env p entity =
      some (VerifyError.notEnoughTimestamps ts.length p.threshold) := by
  have h1 : NewVerify env p entity =
      Except.error
        (VerifyError.notEnoughTimestamps ts.length p.threshold) := by
    rcases hbad with h | h
    · simp [NewVerify, hts, h]
    · simp [NewVerify, hts, h]
  exact ⟨h1, by simp [Verify, h1]⟩

/-- Witness for C3: one attached token against threshold 2 is rejected
with the counts 1 and 2. -/
theorem C3_witness :
    NewVerify wEnvAt20 ⟨wTM, 2⟩ wEntityOne =
      Except.error (VerifyError.notEnoughTimestamps 1 2) ∧
    Verify wEnvAt20 ⟨wTM, 2⟩ wEntityOne =
      some (VerifyError.notEnoughTimestamps 1 2) :=
  C3_threshold_fast_path_rejection wEnvAt20 ⟨wTM, 2⟩ wEntityOne [wTok] none
    rfl (Or.inr (by decide))

/-- Claim C8: `Verify` succeeds exactly when `NewVerify` succeeds on the
same entity, and on failure returns exactly the error `NewVerify`
returns: it is `NewVerify` with the verified times discarded. -/
theorem C8_verify_refines_detailed (env : Env)
    (p : TimestampAuthorityVerifier) (entity : SignedEntity) :
    ((∃ times, NewVerify env p entity = Except.ok times) ↔
      Verify env p entity = none) ∧
    (∀ e, NewVerify env p entity = Except.error e ↔
      Verify env p entity = some e) := by
  cases h : NewVerify env p entity with
  | ok times => simp [Verify, h]
  | error e => simp [Verify, h]

/-- Claim C10: with threshold 0 and an empty, successfully retrieved
timestamp list, the threshold check passes, the two content retrievals are
still consulted and their failures propagated, and if both succeed the
call returns the empty list of times for every oracle environment (so no
cryptographic primitive is consulted). -/
theorem C10_threshold_zero_empty_list (p : TimestampAuthorityVerifier)
    (entity : SignedEntity)
    (hthr : p.threshold = 0)
    (hts : entity.timestamps = ([], none)) :
    (∀ e, entity.signatureContent = Except.error e →
      ∀ env, NewVerify env p entity =
        Except.error (VerifyError.propagated e)) ∧
    (∀ sc e, entity.signatureContent = Except.ok sc →
      entity.verificationContent = Except.error e →
      ∀ env, NewVerify env p entity =
        Except.error (VerifyError.propagated e)) ∧
    (∀ sc vc, entity.signatureContent = Except.ok sc →
      entity.verificationContent = Except.ok vc →
      ∀ env, NewVerify env p entity = Except.ok []) := by
  refine ⟨?_, ?_, ?_⟩
  · intro e hsc env
    simp [NewVerify, hts, hthr, hsc]
  · intro sc e hsc hvc env
    simp [NewVerify, hts, hthr, hsc, hvc]
  · intro sc vc hsc hvc env
    simp [NewVerify, hts, hthr, hsc, hvc, verifyTimestampsLoop]

/-- Witness for C10: threshold 0, no tokens, both contents retrievable:
the call succeeds with the empty list of verified times. -/
theorem C10_witness :
    NewVerify wEnvFail ⟨wTM, 0⟩ wEntityEmpty = Except.ok [] :=
  (C10_threshold_zero_empty_list ⟨wTM, 0⟩ wEntityEmpty rfl rfl).2.2
    wSC wVC rfl rfl wEnvFail

/-- Claim C1: when the timestamp list is retrieved successfully with at
least `threshold` tokens and both contents are retrievable, a single
attached token that fails the per-candidate body against every candidate
certificate authority makes both `NewVerify` and `Verify` fail with the
generic "unable to verify timestamp" error and return no times, whatever
the other tokens would do. -/
theorem C1_one_failing_token_fails_call (env : Env)
    (p : TimestampAuthorityVerifier) (entity : SignedEntity)
    (ts : List Bytes) (sc : SignatureContent) (vc : VerificationContent)
    (hts : entity.timestamps = (ts, none))
    (hlen : p.threshold ≤ ts.length)
    (hsc : entity.signatureContent = Except.ok sc)
    (hvc : entity.verificationContent = Except.ok vc)
    (tok : Bytes) (htok : tok ∈ ts)
    (hfail : ∀ ca ∈ p.trustedMaterial.tsaCertificateAuthorities,
      tryCertAuthority env tok sc.getSignature p.trustedMaterial vc ca
        = none) :
    NewVerify env p entity =
      Except.error VerifyError.unableToVerifyTimestamp ∧
    Verify env p entity = some VerifyError.unableToVerifyTimestamp := by
  have hvfail : verifySignedTimestamp env tok sc.getSignature
      p.trustedMaterial vc = Except.error unableToVerifySignedMsg :=
    scan_error_of_all_none env tok sc.getSignature p.trustedMaterial vc
      p.trustedMaterial.tsaCertificateAuthorities hfail
  have hrun := NewVerify_run env p entity ts sc vc hts (Nat.not_lt.mpr hlen)
    hsc hvc
  have hloop := loop_error_of_mem_fail env sc.getSignature p.trustedMaterial
    vc ts tok htok unableToVerifySignedMsg hvfail
  have h1 := hrun.trans hloop
  exact ⟨h1, by simp [Verify, h1]⟩

/-- Witness for C1: one token, threshold 1, oracles under which the token
fails against the only candidate: the whole call fails with the generic
error. -/
theorem C1_witness :
    NewVerify wEnvFail ⟨wTM, 1⟩ wEntityOne =
      Except.error VerifyError.unableToVerifyTimestamp ∧
    Verify wEnvFail ⟨wTM, 1⟩ wEntityOne =
      some VerifyError.unableToVerifyTimestamp :=
  C1_one_failing_token_fails_call wEnvFail ⟨wTM, 1⟩ wEntityOne [wTok] wSC
    wVC rfl (by decide) rfl rfl wTok (by simp) (fun ca _ => rfl)

/-- Claim C4: if a token cryptographically verifies under the first
candidate but that candidate's later per-candidate step fails (its body
yields no time), while a later candidate passes all per-candidate checks,
the scan continues past the failure and per-timestamp verification
succeeds with the later candidate's time. -/
theorem C4_candidate_failure_continues_scan (env : Env) (st sb : Bytes)
    (tm : TrustedMaterial) (vc : VerificationContent)
    (ca₁ ca₂ : CertificateAuthority) (t₁ t₂ : Int)
    (hcas : tm.tsaCertificateAuthorities = [ca₁, ca₂])
    (_hcrypto₁ : env.verifyTimestampResponse st sb
      ⟨[ca₁.root], ca₁.intermediates, ca₁.leaf⟩ = some t₁)
    (hfail₁ : tryCertAuthority env st sb tm vc ca₁ = none)
    (hpass₂ : tryCertAuthority env st sb tm vc ca₂ = some t₂) :
    verifySignedTimestamp env st sb tm vc = Except.ok t₂ := by
  unfold verifySignedTimestamp
  rw [hcas]
  simp [scanCertAuthorities, hfail₁, hpass₂]

/-- Witness for C4: under `wEnvPick` the token asserts time 15 under both
candidates, only the second candidate's leaf chains, and verification
succeeds with 15 via the second candidate. -/
theorem C4_witness :
    verifySignedTimestamp wEnvPick wTok wSC.getSignature wTM2 wVC =
      Except.ok 15 :=
  C4_candidate_failure_continues_scan wEnvPick wTok wSC.getSignature wTM2
    wVC wCA wCA2 15 15 rfl rfl rfl rfl

/-- Claim C9: the scan is first-match-wins: when every candidate before
`ca` fails the per-candidate body and `ca` passes with time `t`,
per-timestamp verification returns `t` for every tail of later candidates
— in particular no candidate after the first fully-succeeding one can
influence the result, even one that would also pass with another time. -/
theorem C9_earliest_full_success_wins (env : Env) (st sb : Bytes)
    (tm : TrustedMaterial) (vc : VerificationContent)
    (l₁ : List CertificateAuthority) (ca : CertificateAuthority)
    (l₂ : List CertificateAuthority) (t : Int)
    (hcas : tm.tsaCertificateAuthorities = l₁ ++ ca :: l₂)
    (hpre : ∀ ca' ∈ l₁, tryCertAuthority env st sb tm vc ca' = none)
    (hca : tryCertAuthority env st sb tm vc ca = some t) :
    verifySignedTimestamp env st sb tm vc = Except.ok t := by
  unfold verifySignedTimestamp
  rw [hcas, scan_append_of_none env st sb tm vc l₁ (ca :: l₂) hpre]
  simp [scanCertAuthorities, hca]

/-- Witness for C9: under `wEnvBoth` both candidates of `wTM2` fully pass,
the first deriving time 13 and the second time 15; verification returns
the first candidate's 13. -/
theorem C9_witness :
    verifySignedTimestamp wEnvBoth wTok wSC.getSignature wTM2 wVC =
      Except.ok 13 :=
  C9_earliest_full_success_wins wEnvBoth wTok wSC.getSignature wTM2 wVC
    [] wCA [wCA2] 13 rfl (by simp) rfl

/-- Claim C5: a token that passes the per-candidate body against exactly
one candidate of the trusted material and fails against every other
candidate verifies to that candidate's time, and the outcome is the same
for any permutation of the candidate sequence (the verification content
answering identically on both materials, since only the candidate order
differs). -/
theorem C5_unique_match_order_independent (env : Env) (st sb : Bytes)
    (tm₁ tm₂ : TrustedMaterial) (vc : VerificationContent)
    (caStar : CertificateAuthority) (t : Int)
    (hperm : tm₁.tsaCertificateAuthorities.Perm
      tm₂.tsaCertificateAuthorities)
    (hvc : ∀ u : Int, vc.validAtTime u tm₁ = vc.validAtTime u tm₂)
    (hmem : caStar ∈ tm₁.tsaCertificateAuthorities)
    (hstar : tryCertAuthority env st sb tm₁ vc caStar = some t)
    (hothers : ∀ ca ∈ tm₁.tsaCertificateAuthorities, ca ≠ caStar →
      tryCertAuthority env st sb tm₁ vc ca = none) :
    verifySignedTimestamp env st sb tm₁ vc = Except.ok t ∧
    verifySignedTimestamp env st sb tm₂ vc = Except.ok t := by
  constructor
  · exact scan_ok_of_unique env st sb tm₁ vc caStar t hstar
      tm₁.tsaCertificateAuthorities hmem hothers
  · have hstar₂ : tryCertAuthority env st sb tm₂ vc caStar = some t := by
      rw [← tryCertAuthority_congr env st sb tm₁ tm₂ vc hvc caStar]
      exact hstar
    have hmem₂ : caStar ∈ tm₂.tsaCertificateAuthorities :=
      hperm.mem_iff.mp hmem
    have hothers₂ : ∀ ca ∈ tm₂.tsaCertificateAuthorities, ca ≠ caStar →
        tryCertAuthority env st sb tm₂ vc ca = none := by
      intro ca hca hne
      rw [← tryCertAuthority_congr env st sb tm₁ tm₂ vc hvc ca]
      exact hothers ca (hperm.mem_iff.mpr hca) hne
    exact scan_ok_of_unique env st sb tm₂ vc caStar t hstar₂
      tm₂.tsaCertificateAuthorities hmem₂ hothers₂

/-- Witness for C5: under `wEnvPick` only `wCA2` matches; verification
returns its time 15 both when `wCA2` is last (`wTM2`) and when it is
first (`wTM2r`). -/
theorem C5_witness :
    verifySignedTimestamp wEnvPick wTok wSC.getSignature wTM2 wVC =
      Except.ok 15 ∧
    verifySignedTimestamp wEnvPick wTok wSC.getSignature wTM2r wVC =
      Except.ok 15 :=
  C5_unique_match_order_independent wEnvPick wTok wSC.getSignature wTM2
    wTM2r wVC wCA2 15 (List.Perm.swap wCA2 wCA []) (fun _ => rfl)
    (by decide) rfl (by decide)

/-- Claim C6: tokens are not deduplicated before the threshold count: for
any threshold `k ≥ 1`, an entity presenting `k` identical copies of one
token that verifies to time `T` passes the threshold and the call
succeeds, returning `k` copies of `T`. -/
theorem C6_duplicates_satisfy_threshold (env : Env)
    (p : TimestampAuthorityVerifier) (entity : SignedEntity)
    (k : Nat) (tok : Bytes) (sc : SignatureContent)
    (vc : VerificationContent) (T : Int)
    (_hk : 1 ≤ k)
    (hthr : p.threshold = k)
    (hts : entity.timestamps = (List.replicate k tok, none))
    (hsc : entity.signatureContent = Except.ok sc)
    (hvc : entity.verificationContent = Except.ok vc)
    (hver : verifySignedTimestamp env tok sc.getSignature p.trustedMaterial
      vc = Except.ok T) :
    NewVerify env p entity = Except.ok (List.replicate k T) ∧
    Verify env p entity = none := by
  have hlen : ¬ (List.replicate k tok).length < p.threshold := by
    simp [hthr]
  have hrun := NewVerify_run env p entity (List.replicate k tok) sc vc hts
    hlen hsc hvc
  have hall : ∀ t ∈ List.replicate k tok, ∃ u,
      verifySignedTimestamp env t sc.getSignature p.trustedMaterial vc =
        Except.ok u := by
    intro t ht
    rw [List.eq_of_mem_replicate ht]
    exact ⟨T, hver⟩
  have hloop := loop_ok_of_all env sc.getSignature p.trustedMaterial vc
    (List.replicate k tok) hall
  have hmap : (List.replicate k tok).map
      (verifiedTimeOf env sc.getSignature p.trustedMaterial vc) =
      List.replicate k T := by
    rw [List.map_replicate]
    congr 1
    simp [verifiedTimeOf, hver]
  have h1 : NewVerify env p entity = Except.ok (List.replicate k T) := by
    rw [hrun, hloop, hmap]
  exact ⟨h1, by simp [Verify, h1]⟩

/-- Witness for C6: two copies of one token against threshold 2 succeed,
returning the verified time twice. -/
theorem C6_witness :
    NewVerify wEnvAt20 ⟨wTM, 2⟩ wEntityTwo =
      Except.ok (List.replicate 2 20) ∧
    Verify wEnvAt20 ⟨wTM, 2⟩ wEntityTwo = none :=
  C6_duplicates_satisfy_threshold wEnvAt20 ⟨wTM, 2⟩ wEntityTwo 2 wTok wSC
    wVC 20 (by decide) rfl rfl rfl rfl rfl

/-- Claim C7: when the detailed form succeeds, every attached token
verified and the returned times are the tokens' verified times position
for position, in input order (not sorted). -/
theorem C7_times_follow_input_order (env : Env)
    (p : TimestampAuthorityVerifier) (entity : SignedEntity)
    (ts : List Bytes) (sc : SignatureContent) (vc : VerificationContent)
    (times : List Int)
    (hts : entity.timestamps = (ts, none))
    (hsc : entity.signatureContent = Except.ok sc)
    (hvc : entity.verificationContent = Except.ok vc)
    (hok : NewVerify env p entity = Except.ok times) :
    times = ts.map (verifiedTimeOf env sc.getSignature p.trustedMaterial vc)
      ∧ ∀ tok ∈ ts, ∃ u,
        verifySignedTimestamp env tok sc.getSignature p.trustedMaterial vc
          = Except.ok u := by
  by_cases hlen : ts.length < p.threshold
  · exfalso
    have hbad : NewVerify env p entity =
        Except.error
          (VerifyError.notEnoughTimestamps ts.length p.threshold) := by
      simp [NewVerify, hts, hlen]
    rw [hbad] at hok
    cases hok
  · have hrun := NewVerify_run env p entity ts sc vc hts hlen hsc hvc
    rw [hrun] at hok
    obtain ⟨hall, hmap⟩ := loop_ok_inv env sc.getSignature p.trustedMaterial
      vc ts times hok
    exact ⟨hmap, hall⟩

/-- Witness for C7: the successful call on one token returns exactly the
map of the verified-time function over the input list. -/
theorem C7_witness :
    [(20 : Int)] =
      [wTok].map (verifiedTimeOf wEnvAt20 wSC.getSignature wTM wVC) ∧
    ∀ tok ∈ [wTok], ∃ u,
      verifySignedTimestamp wEnvAt20 tok wSC.getSignature wTM wVC =
        Except.ok u :=
  C7_times_follow_input_order wEnvAt20 ⟨wTM, 1⟩ wEntityOne [wTok] wSC wVC
    [20] rfl rfl rfl rfl

/-- Counterexample for C2: the validity-window end bound is inclusive, not
half-open.  `wCA` declares end bound 20; under oracles asserting exactly
time 20 with every other check passing, per-timestamp verification
succeeds — the claim says a token whose time equals the end bound fails. -/
theorem C2_counterexample :
    wCA.validityPeriodEnd = some 20 ∧
    verifySignedTimestamp wEnvAt20 wTok wSC.getSignature wTM wVC =
      Except.ok 20 :=
  ⟨rfl, rfl⟩

/-- Claim C2 as amended: against an otherwise-valid token/candidate
pairing (token asserts time `t`, the chain checks and the content
cross-check passes), the validity window is treated as the closed interval
from start to end: verification succeeds exactly when `t` is at or after a
declared start and at or before a declared end, an unset (`none`) bound
imposing no constraint; otherwise it fails with the scan-exhausted
error. -/
theorem C2_window_closed_interval (env : Env) (st sb : Bytes)
    (tm : TrustedMaterial) (vc : VerificationContent)
    (ca : CertificateAuthority) (t : Int)
    (hcas : tm.tsaCertificateAuthorities = [ca])
    (hcrypto : env.verifyTimestampResponse st sb
      ⟨[ca.root], ca.intermediates, ca.leaf⟩ = some t)
    (hchain : env.certVerify ca.leaf
      ⟨t, [ca.root], ca.intermediates, [ExtKeyUsage.timeStamping]⟩ = true)
    (hcontent : vc.validAtTime t tm = true) :
    (verifySignedTimestamp env st sb tm vc = Except.ok t ↔
      (∀ s, ca.validityPeriodStart = some s → s ≤ t) ∧
      (∀ e, ca.validityPeriodEnd = some e → t ≤ e)) ∧
    (verifySignedTimestamp env st sb tm vc =
        Except.error unableToVerifySignedMsg ↔
      ¬ ((∀ s, ca.validityPeriodStart = some s → s ≤ t) ∧
        (∀ e, ca.validityPeriodEnd = some e → t ≤ e))) := by
  unfold verifySignedTimestamp
  rw [hcas]
  simp only [scanCertAuthorities, tryCertAuthority, hcrypto, hchain]
  rcases hs : ca.validityPeriodStart with _ | s <;>
    rcases he : ca.validityPeriodEnd with _ | e <;>
      simp [hcontent, unableToVerifySignedMsg] <;>
        split_ifs <;> simp <;> omega

/-- Witness for C2 as amended: at the concrete pairing of `wEnvAt20` (time
20) with `wCA` (window bounds 10 and 20), the closed-interval
characterization holds. -/
theorem C2_witness :
    (verifySignedTimestamp wEnvAt20 wTok wSC.getSignature wTM wVC =
        Except.ok 20 ↔
      (∀ s, wCA.validityPeriodStart = some s → s ≤ 20) ∧
      (∀ e, wCA.validityPeriodEnd = some e → (20 : Int) ≤ e)) ∧
    (verifySignedTimestamp wEnvAt20 wTok wSC.getSignature wTM wVC =
        Except.error unableToVerifySignedMsg ↔
      ¬ ((∀ s, wCA.validityPeriodStart = some s → s ≤ 20) ∧
        (∀ e, wCA.validityPeriodEnd = some e → (20 : Int) ≤ e))) :=
  C2_window_closed_interval wEnvAt20 wTok wSC.getSignature wTM wVC wCA 20
    rfl rfl rfl rfl

end Tsa
